import Mathlib

/-!
Verification of the CyberGear motor CAN command encoder and transactional
send primitive of `windows_cybergearmotortest.py`, via a shallow embedding.

Modelling conventions:
* A Python float that reaches `struct.pack('<f', v)` is represented by the
  32-bit IEEE-754 single-precision bit pattern that the pack computes
  (a natural number below 2^32); the serializer emits that pattern's four
  bytes in little-endian order, exactly as `struct.pack('<f', ...)` does.
* `time.sleep` calls only consume wall-clock time and are dropped.
* The CAN bus transport is a parameter of each operation.  Inside the retry
  loop of `send_can_frame` it is a function from the attempt index to the
  success of `self.bus.send` (an exception raised by the transport is
  modelled as the attempt reporting `false`; the loop catches every
  exception, so no exception escapes and the embedding is a total function
  into `Bool`).  For the higher-level motor operations it is the boolean
  result of a whole `send_can_frame` call on a given frame.
* A Python method without a `return` statement returns `None`; method
  returns are embedded as `Option Bool`, with `none` standing for `None`.
-/

namespace CyberGear

/-- Arbitration-id construction from `send_can_frame`:
`can_id = (cmd_id << 24) | (self.master_id << 8) | motor_id`. -/
def can_id (cmd_id master_id motor_id : Nat) : Nat :=
  (cmd_id <<< 24) ||| (master_id <<< 8) ||| motor_id

/-- Modelled from the spec: the inverse bit-shift extracting the command id
from an arbitration id (round-trip law of spec section 8). -/
def decode_cmd (id : Nat) : Nat := id >>> 24

/-- Modelled from the spec: the inverse bit-shift/mask extracting the 16-bit
controller address from an arbitration id. -/
def decode_master (id : Nat) : Nat := (id >>> 8) &&& 0xFFFF

/-- Modelled from the spec: the mask extracting the 8-bit motor address from
an arbitration id. -/
def decode_motor (id : Nat) : Nat := id &&& 0xFF

/-- The four bytes that `struct.pack('<f', v)` appends, in order
(little-endian), for a value whose single-precision bit pattern is `bits`. -/
def packF32LE (bits : Nat) : List Nat :=
  [bits % 256, bits / 256 % 256, bits / 65536 % 256, bits / 16777216 % 256]

/-- Modelled from the spec: the decoder reassembling a single-precision bit
pattern from a 4-byte little-endian payload (the spec's round-trip law for
float serialization); `none` on a payload that is not 4 bytes. -/
def unpackF32LE : List Nat → Option Nat
  | [b0, b1, b2, b3] => some (b0 + 256 * b1 + 65536 * b2 + 16777216 * b3)
  | _ => none

/-- Modelled from the spec: a single-precision NaN bit pattern (exponent
field all ones with a nonzero fraction field); the spec excludes NaN from
the expected domain of the float round-trip law. -/
def isNaN32 (bits : Nat) : Bool :=
  ((bits >>> 23) &&& 0xFF == 0xFF) && (bits &&& 0x7FFFFF != 0)

/-- The retry loop of `send_can_frame` (`for attempt in range(retry)`),
started at iteration `attempt`.  `bus k` is the success of the k-th
`self.bus.send` call (a raised exception is `false`).  Returns the boolean
result of `send_can_frame` together with the total number of `bus.send`
invocations performed. -/
def send_attempts (bus : Nat → Bool) (retry attempt : Nat) : Bool × Nat :=
  if _h : attempt < retry then
    if bus attempt then
      (true, attempt + 1)
    else if attempt = retry - 1 then
      (false, attempt + 1)
    else
      send_attempts bus retry (attempt + 1)
  else
    (false, attempt)
termination_by retry - attempt

/-- The observable behaviour of `send_can_frame(..., retry)`: its boolean
result and how many transmit attempts it makes.  All exceptions are caught
inside the loop, so the embedding is total. -/
def send_can_frame (bus : Nat → Bool) (retry : Nat) : Bool × Nat :=
  send_attempts bus retry 0

/-- A call of `send_can_frame` that leaves `retry` at its default: the
source's signature is `send_can_frame(self, cmd_id, motor_id, data, retry=3)`. -/
def send_can_frame_default (bus : Nat → Bool) : Bool × Nat :=
  send_can_frame bus 3

/-- A transport stub whose first `n` transmit attempts fail and whose
attempts from index `n` on succeed: it fails exactly `n` times, then
succeeds. -/
def failsThen (n k : Nat) : Bool := decide (n ≤ k)

/-- The arguments of one `send_can_frame` call made by a motor operation:
the command id, the target motor id and the 8 data bytes.  The frame put on
the wire carries `can_id cmd_id master_id motor_id` as arbitration id. -/
structure Frame where
  cmd_id : Nat
  motor_id : Nat
  data : List Nat
deriving DecidableEq

/-- The mutable state of a `CyberGearMotor` object that the commands touch:
`self.master_id` and the client-side cache `self.last_positions` (cached
commanded positions, stored as single-precision bit patterns). -/
structure MotorState where
  master_id : Nat
  last_positions : Nat → Option Nat

/-- The state `__init__` establishes: `self.master_id = 0x00FD` and
`self.last_positions = {}`. -/
def initState : MotorState :=
  { master_id := 0x00FD, last_positions := fun _ => none }

/-- The outcome of one motor-operation method call: the updated object
state, the `send_can_frame` calls it made (in order), and its Python return
value (`none` = `None`). -/
structure OpResult where
  state : MotorState
  sends : List Frame
  ret : Option Bool

/-- Method `enable_motor`: sends command 0x03 with an all-zero payload,
discards the send result, returns `None`. -/
def enable_motor (send : Frame → Bool) (s : MotorState) (motor_id : Nat) : OpResult :=
  { state := s,
    sends := [⟨0x03, motor_id, List.replicate 8 0x00⟩],
    ret := none }

/-- Method `disable_motor`: sends command 0x04 with an all-zero payload,
discards the send result, returns `None`. -/
def disable_motor (send : Frame → Bool) (s : MotorState) (motor_id : Nat) : OpResult :=
  { state := s,
    sends := [⟨0x04, motor_id, List.replicate 8 0x00⟩],
    ret := none }

/-- Method `stop_motor`: sends command 0x00 with an all-zero payload,
discards the send result, returns `None`. -/
def stop_motor (send : Frame → Bool) (s : MotorState) (motor_id : Nat) : OpResult :=
  { state := s,
    sends := [⟨0x00, motor_id, List.replicate 8 0x00⟩],
    ret := none }

/-- Method `reset_position`: sends command 0x06 with payload
`[0x01] + [0x00]*7`, then sets `self.last_positions[motor_id] = 0.0`
unconditionally (the send result is discarded), returns `None`.
The bit pattern of `0.0` is `0`. -/
def reset_position (send : Frame → Bool) (s : MotorState) (motor_id : Nat) : OpResult :=
  { state := { s with
      last_positions := fun m => if m = motor_id then some 0 else s.last_positions m },
    sends := [⟨0x06, motor_id, 0x01 :: List.replicate 7 0x00⟩],
    ret := none }

/-- Method `set_position_control_mode`: sends command 0x12 with the literal
payload `[0x05, 0x70, 0x00, 0x00, 0x01, 0x00, 0x00, 0x00]`, discards the
send result, returns `None`. -/
def set_position_control_mode (send : Frame → Bool) (s : MotorState) (motor_id : Nat) :
    OpResult :=
  { state := s,
    sends := [⟨0x12, motor_id, [0x05, 0x70, 0x00, 0x00, 0x01, 0x00, 0x00, 0x00]⟩],
    ret := none }

/-- Method `set_limit_speed`: sends command 0x12 with payload
`[0x17, 0x70, 0x00, 0x00] + struct.pack('<f', speed_rad_s)`, discards the
send result, returns `None`. -/
def set_limit_speed (send : Frame → Bool) (s : MotorState) (motor_id bits : Nat) : OpResult :=
  { state := s,
    sends := [⟨0x12, motor_id, [0x17, 0x70, 0x00, 0x00] ++ packF32LE bits⟩],
    ret := none }

/-- Method `set_limit_torque`: sends command 0x12 with payload
`[0x18, 0x70, 0x00, 0x00] + struct.pack('<f', torque_nm)`, discards the
send result, returns `None`. -/
def set_limit_torque (send : Frame → Bool) (s : MotorState) (motor_id bits : Nat) : OpResult :=
  { state := s,
    sends := [⟨0x12, motor_id, [0x18, 0x70, 0x00, 0x00] ++ packF32LE bits⟩],
    ret := none }

/-- Method `set_target_position`: sends command 0x12 with payload
`[0x16, 0x70, 0x00, 0x00] + struct.pack('<f', radians)`; when the send
succeeds it sets `self.last_positions[motor_id] = radians`, otherwise the
cache is left unchanged; it returns the boolean send result. -/
def set_target_position (send : Frame → Bool) (s : MotorState) (motor_id bits : Nat) :
    OpResult :=
  let f : Frame := ⟨0x12, motor_id, [0x16, 0x70, 0x00, 0x00] ++ packF32LE bits⟩
  let success := send f
  { state :=
      if success then
        { s with
          last_positions := fun m => if m = motor_id then some bits else s.last_positions m }
      else s,
    sends := [f],
    ret := some success }

/-- Method `move_to_degrees`: computes `radians = math.radians(degrees)` and
calls `set_limit_torque`, `set_limit_speed`, `set_target_position` in that
order, discarding every result; it returns `None`.  `radiansOf` stands for
`math.radians` composed with the single-precision narrowing performed by
`struct.pack('<f', ...)` — pure floating-point arithmetic kept abstract.
The source's defaults are `speed_rad_s=5.0, torque_nm=12.0`; both values
are passed explicitly here. -/
def move_to_degrees (radiansOf : Int → Nat) (send : Frame → Bool) (s : MotorState)
    (motor_id : Nat) (degrees : Int) (speed_bits torque_bits : Nat) : OpResult :=
  let radians := radiansOf degrees
  let r1 := set_limit_torque send s motor_id torque_bits
  let r2 := set_limit_speed send r1.state motor_id speed_bits
  let r3 := set_target_position send r2.state motor_id radians
  { state := r3.state,
    sends := r1.sends ++ r2.sends ++ r3.sends,
    ret := none }

theorem can_id_eq_add (cmd master motor : Nat)
    (hm : master < 65536) (ho : motor < 256) :
    can_id cmd master motor = 16777216 * cmd + 256 * master + motor := by
  have hb1 : master <<< 8 < 2 ^ 24 := by
    rw [Nat.shiftLeft_eq]
    have h8 : (2 : Nat) ^ 8 = 256 := by norm_num
    have h24 : (2 : Nat) ^ 24 = 16777216 := by norm_num
    rw [h8, h24]; omega
  have hb2 : motor < 2 ^ 8 := by
    have h8 : (2 : Nat) ^ 8 = 256 := by norm_num
    rw [h8]; omega
  have e1 : (cmd <<< 24) ||| (master <<< 8) = 2 ^ 8 * (2 ^ 16 * cmd + master) := by
    rw [Nat.shiftLeft_eq cmd 24, Nat.mul_comm cmd (2 ^ 24),
      ← Nat.mul_add_lt_is_or hb1 cmd, Nat.shiftLeft_eq]
    ring
  have e2 : can_id cmd master motor = 2 ^ 8 * (2 ^ 16 * cmd + master) + motor := by
    unfold can_id
    rw [e1]
    exact (Nat.mul_add_lt_is_or hb2 _).symm
  rw [e2]; ring

/-- Claim C2: for every triple with `cmd < 2^8`, `master < 2^16` and
`motor < 2^8`, the arbitration id
`(cmd << 24) | (master << 8) | motor` decodes back to the same triple via
the inverse bit-shift/mask operations (round-trip law). -/
theorem can_id_round_trip (cmd master motor : Nat)
    (hc : cmd < 256) (hm : master < 65536) (ho : motor < 256) :
    decode_cmd (can_id cmd master motor) = cmd ∧
    decode_master (can_id cmd master motor) = master ∧
    decode_motor (can_id cmd master motor) = motor := by
  have e3 := can_id_eq_add cmd master motor hm ho
  refine ⟨?_, ?_, ?_⟩
  · unfold decode_cmd
    rw [e3, Nat.shiftRight_eq_div_pow]
    have h24 : (2 : Nat) ^ 24 = 16777216 := by norm_num
    rw [h24]; omega
  · unfold decode_master
    rw [e3, Nat.shiftRight_eq_div_pow]
    have hmask : (0xFFFF : Nat) = 2 ^ 16 - 1 := by norm_num
    rw [hmask, Nat.and_pow_two_sub_one_eq_mod]
    have h8 : (2 : Nat) ^ 8 = 256 := by norm_num
    have h16 : (2 : Nat) ^ 16 = 65536 := by norm_num
    rw [h8, h16]; omega
  · unfold decode_motor
    have hmask : (0xFF : Nat) = 2 ^ 8 - 1 := by norm_num
    rw [e3, hmask, Nat.and_pow_two_sub_one_eq_mod]
    have h8 : (2 : Nat) ^ 8 = 256 := by norm_num
    rw [h8]; omega

/-- Witness for C2 at the program's own constants: command 0x12 (parameter
write), controller 0x00FD, motor 1. -/
theorem can_id_round_trip_witness :
    decode_cmd (can_id 0x12 0x00FD 1) = 0x12 ∧
    decode_master (can_id 0x12 0x00FD 1) = 0x00FD ∧
    decode_motor (can_id 0x12 0x00FD 1) = 1 :=
  can_id_round_trip 0x12 0x00FD 1 (by decide) (by decide) (by decide)

theorem send_attempts_all_fail (bus : Nat → Bool) (retry : Nat)
    (hfail : ∀ k, k < retry → bus k = false) :
    ∀ d j, retry - j = d → j < retry → send_attempts bus retry j = (false, retry) := by
  intro d
  induction d with
  | zero => intro j hd hj; omega
  | succ d ih =>
    intro j hd hj
    rw [send_attempts]
    rw [dif_pos hj, hfail j hj]
    simp only [Bool.false_eq_true, if_false]
    by_cases hlast : j = retry - 1
    · rw [if_pos hlast]
      have : j + 1 = retry := by omega
      rw [this]
    · rw [if_neg hlast]
      exact ih (j + 1) (by omega) (by omega)

theorem send_attempts_first_success (bus : Nat → Bool) (retry m : Nat)
    (hm : m < retry) (hbus : bus m = true) (hfail : ∀ k, k < m → bus k = false) :
    ∀ d j, m - j = d → j ≤ m → send_attempts bus retry j = (true, m + 1) := by
  intro d
  induction d with
  | zero =>
    intro j hd hj
    have hjm : j = m := by omega
    subst hjm
    rw [send_attempts, dif_pos hm, hbus]
    simp
  | succ d ih =>
    intro j hd hj
    have hjm : j < m := by omega
    rw [send_attempts, dif_pos (by omega : j < retry), hfail j hjm]
    simp only [Bool.false_eq_true, if_false]
    rw [if_neg (by omega : ¬ j = retry - 1)]
    exact ih (j + 1) (by omega) (by omega)

theorem send_attempts_zero (bus : Nat → Bool) :
    send_attempts bus 0 0 = (false, 0) := by
  rw [send_attempts]
  simp

/-- Claim C1: against a transport stub that fails exactly `N` times and
then succeeds, `send_can_frame` with `retry > N` returns `true` after
exactly `N + 1` transmit attempts, and with `retry ≤ N` it returns `false`
after exactly `retry` transmit attempts.  The source's default for `retry`
is 3 (definition `send_can_frame_default`). -/
theorem send_can_frame_retry_split (N retry : Nat) :
    (N < retry → send_can_frame (failsThen N) retry = (true, N + 1)) ∧
    (retry ≤ N → send_can_frame (failsThen N) retry = (false, retry)) := by
  constructor
  · intro h
    unfold send_can_frame
    refine send_attempts_first_success (failsThen N) retry N h ?_ ?_ N 0 rfl (by omega)
    · simp [failsThen]
    · intro k hk
      simp [failsThen]
      omega
  · intro h
    unfold send_can_frame
    cases retry with
    | zero => exact send_attempts_zero _
    | succ r =>
      refine send_attempts_all_fail (failsThen N) (r + 1) ?_ (r + 1) 0 rfl (by omega)
      intro k hk
      simp [failsThen]
      omega

/-- Witness for C1: a stub failing exactly twice, once with 4 allowed
attempts (success on the third transmit) and once with only 2 (failure
after both). -/
theorem send_can_frame_retry_split_witness :
    send_can_frame (failsThen 2) 4 = (true, 3) ∧
    send_can_frame (failsThen 2) 2 = (false, 2) :=
  ⟨(send_can_frame_retry_split 2 4).1 (by decide),
   (send_can_frame_retry_split 2 2).2 (by decide)⟩

/-- Claim C8: against a transport whose every transmit fails (raises),
`send_can_frame` returns `false` after exactly `retry` transmit attempts.
The exception is caught on every iteration, so the operation is a total
function into `Bool`: the failure is reported only through the boolean
result. -/
theorem send_can_frame_always_fails (bus : Nat → Bool) (retry : Nat)
    (hfail : ∀ k, bus k = false) :
    send_can_frame bus retry = (false, retry) := by
  unfold send_can_frame
  cases retry with
  | zero => exact send_attempts_zero bus
  | succ r =>
    exact send_attempts_all_fail bus (r + 1) (fun k _ => hfail k) (r + 1) 0 rfl (by omega)

/-- Witness for C8 at the default attempt count 3. -/
theorem send_can_frame_always_fails_witness :
    send_can_frame (fun _ => false) 3 = (false, 3) :=
  send_can_frame_always_fails (fun _ => false) 3 (fun _ => rfl)

/-- Modelled from the spec: the exact rational value denoted by a finite
IEEE-754 single-precision bit pattern (sign bit 31, 8 exponent bits, 23
fraction bits; subnormals when the exponent field is zero).  Used only to
relate concrete bit patterns to the numeric values the spec names. -/
def f32Val (bits : Nat) : ℚ :=
  let sign : Nat := bits / 2 ^ 31
  let ex : Nat := bits / 2 ^ 23 % 2 ^ 8
  let frac : Nat := bits % 2 ^ 23
  let mag : ℚ :=
    if ex = 0 then (frac : ℚ) / 2 ^ 149
    else ((2 ^ 23 + frac : Nat) : ℚ) * 2 ^ ex / 2 ^ 150
  if sign = 1 then -mag else mag

/-- Claim C3: `set_target_position` on motor 1 builds exactly one frame:
command id 0x12 whose arbitration id is
`(0x12 << 24) | (0x00FD << 8) | 0x01 = 0x1200FD01`, with the 8-byte payload
`[0x16, 0x70, 0x00, 0x00]` followed by the 4 little-endian bytes of the
single-precision encoding of the radians value. -/
theorem set_target_position_frame (send : Frame → Bool) (bits : Nat) :
    (set_target_position send initState 1 bits).sends =
      [⟨0x12, 1, [0x16, 0x70, 0x00, 0x00] ++ packF32LE bits⟩] ∧
    can_id 0x12 initState.master_id 1 = 0x1200FD01 ∧
    ([0x16, 0x70, 0x00, 0x00] ++ packF32LE bits).length = 8 :=
  ⟨rfl, by decide, rfl⟩

/-- Claim C4 counterexample: the value-field bytes 4–7 of the
`set_position_control_mode` payload are `[0x01, 0x00, 0x00, 0x00]`, not the
claimed `[0x00, 0x00, 0x01, 0x00]`: the mode selector 1 sits in payload
byte 4, the first byte of the value field. -/
theorem set_position_control_mode_value_bytes_ne :
    (set_position_control_mode (fun _ => true) initState 1).sends.map
        (fun f => f.data.drop 4) = [[0x01, 0x00, 0x00, 0x00]] ∧
    ¬ ((set_position_control_mode (fun _ => true) initState 1).sends.map
        (fun f => f.data.drop 4) = [[0x00, 0x00, 0x01, 0x00]]) :=
  ⟨rfl, by decide⟩

/-- Claim C4 (amended): `set_position_control_mode` sends one frame with
command id 0x12, register index 0x7005 in payload bytes 0–1 (low byte
0x05 then high byte 0x70), and value-field bytes 4–7 equal to
`[0x01, 0x00, 0x00, 0x00]`. -/
theorem set_position_control_mode_frame (send : Frame → Bool) (s : MotorState)
    (motor_id : Nat) :
    (set_position_control_mode send s motor_id).sends.map Frame.cmd_id = [0x12] ∧
    (set_position_control_mode send s motor_id).sends.map (fun f => f.data.take 2) =
      [[0x05, 0x70]] ∧
    0x05 + 256 * 0x70 = 0x7005 ∧
    (set_position_control_mode send s motor_id).sends.map (fun f => f.data.drop 4) =
      [[0x01, 0x00, 0x00, 0x00]] :=
  ⟨rfl, rfl, rfl, rfl⟩

theorem unpack_pack (bits : Nat) (hlt : bits < 2 ^ 32) :
    unpackF32LE (packF32LE bits) = some bits := by
  have h32 : (2 : Nat) ^ 32 = 4294967296 := by norm_num
  rw [h32] at hlt
  simp only [packF32LE, unpackF32LE]
  congr 1
  omega

/-- Claim C5: for every single-precision bit pattern below `2^32` that is
not a NaN, decoding the 4-byte little-endian payload written by each of the
float-serializing encoders (`set_limit_speed`, `set_limit_torque`,
`set_target_position`) yields the pattern back exactly. -/
theorem float_payload_round_trip (send : Frame → Bool) (s : MotorState)
    (motor_id bits : Nat) (hlt : bits < 2 ^ 32) (hnan : isNaN32 bits = false) :
    (set_limit_speed send s motor_id bits).sends.map
        (fun f => unpackF32LE (f.data.drop 4)) = [some bits] ∧
    (set_limit_torque send s motor_id bits).sends.map
        (fun f => unpackF32LE (f.data.drop 4)) = [some bits] ∧
    (set_target_position send s motor_id bits).sends.map
        (fun f => unpackF32LE (f.data.drop 4)) = [some bits] := by
  have h := unpack_pack bits hlt
  refine ⟨?_, ?_, ?_⟩
  · show [unpackF32LE (packF32LE bits)] = [some bits]
    rw [h]
  · show [unpackF32LE (packF32LE bits)] = [some bits]
    rw [h]
  · show [unpackF32LE (packF32LE bits)] = [some bits]
    rw [h]

/-- Witness for C5 at the bit pattern `0x3E860A8A` (the single-precision
value nearest 0.2617993877991494, i.e. radians of 15 degrees). -/
theorem float_payload_round_trip_witness :
    (set_limit_speed (fun _ => true) initState 1 0x3E860A8A).sends.map
        (fun f => unpackF32LE (f.data.drop 4)) = [some 0x3E860A8A] ∧
    (set_limit_torque (fun _ => true) initState 1 0x3E860A8A).sends.map
        (fun f => unpackF32LE (f.data.drop 4)) = [some 0x3E860A8A] ∧
    (set_target_position (fun _ => true) initState 1 0x3E860A8A).sends.map
        (fun f => unpackF32LE (f.data.drop 4)) = [some 0x3E860A8A] :=
  float_payload_round_trip (fun _ => true) initState 1 0x3E860A8A (by decide) (by decide)

/-- Claim C6: `move_to_degrees` on motor 1 with 15 degrees, speed 2.0
(bit pattern 0x40000000) and torque 12.0 (bit pattern 0x41400000) performs
exactly three `send_can_frame` calls, in order: torque-limit write
(register bytes 0x18, 0x70, i.e. 0x7018, value 12.0), speed-limit write
(register 0x7017, value 2.0), target-position write (register 0x7016,
value the radian conversion of 15 degrees, about 0.261799).  `radiansOf`
is the abstract degree-to-radian conversion; the last two conjuncts check
that the bit patterns used really denote 12 and 2. -/
theorem move_to_degrees_sequence (radiansOf : Int → Nat) (send : Frame → Bool) :
    (move_to_degrees radiansOf send initState 1 15 0x40000000 0x41400000).sends =
      [⟨0x12, 1, [0x18, 0x70, 0x00, 0x00] ++ packF32LE 0x41400000⟩,
       ⟨0x12, 1, [0x17, 0x70, 0x00, 0x00] ++ packF32LE 0x40000000⟩,
       ⟨0x12, 1, [0x16, 0x70, 0x00, 0x00] ++ packF32LE (radiansOf 15)⟩] ∧
    f32Val 0x41400000 = 12 ∧ f32Val 0x40000000 = 2 := by
  refine ⟨rfl, ?_, ?_⟩
  · norm_num [f32Val]
  · norm_num [f32Val]

/-- Claim C7: for every motor address, `enable_motor`, `disable_motor` and
`stop_motor` send an all-zero 8-byte payload with command ids 0x03, 0x04
and 0x00 respectively, and `reset_position` sends
`[0x01, 0, 0, 0, 0, 0, 0, 0]` with command id 0x06. -/
theorem basic_command_frames (send : Frame → Bool) (motor_id : Nat) :
    (enable_motor send initState motor_id).sends =
      [⟨0x03, motor_id, [0x00, 0x00, 0x00, 0x00, 0x00, 0x00, 0x00, 0x00]⟩] ∧
    (disable_motor send initState motor_id).sends =
      [⟨0x04, motor_id, [0x00, 0x00, 0x00, 0x00, 0x00, 0x00, 0x00, 0x00]⟩] ∧
    (stop_motor send initState motor_id).sends =
      [⟨0x00, motor_id, [0x00, 0x00, 0x00, 0x00, 0x00, 0x00, 0x00, 0x00]⟩] ∧
    (reset_position send initState motor_id).sends =
      [⟨0x06, motor_id, [0x01, 0x00, 0x00, 0x00, 0x00, 0x00, 0x00, 0x00]⟩] :=
  ⟨rfl, rfl, rfl, rfl⟩

/-- Claim C9: the position cache is updated asymmetrically.
`set_target_position` writes the new value into `last_positions` only when
its send returns `true` and leaves the cache untouched when it returns
`false`, while `reset_position` writes 0.0 (bit pattern 0) into the cache
unconditionally, whatever the transport does. -/
theorem last_positions_update_asymmetry (send : Frame → Bool) (s : MotorState)
    (motor_id bits : Nat) :
    ((set_target_position send s motor_id bits).ret = some true →
      (set_target_position send s motor_id bits).state.last_positions motor_id =
        some bits) ∧
    ((set_target_position send s motor_id bits).ret = some false →
      (set_target_position send s motor_id bits).state.last_positions =
        s.last_positions) ∧
    (reset_position send s motor_id).state.last_positions motor_id = some 0 := by
  cases hsend : send ⟨0x12, motor_id, [0x16, 0x70, 0x00, 0x00] ++ packF32LE bits⟩ <;>
    refine ⟨?_, ?_, ?_⟩ <;>
    simp only [List.cons_append, List.nil_append] at hsend <;>
    simp [set_target_position, reset_position, hsend]

/-- Witness for C9: a transport that always reports failure leaves the
`set_target_position` cache untouched, while `reset_position` still zeroes
the cache entry. -/
theorem last_positions_update_asymmetry_witness :
    (set_target_position (fun _ => false) initState 1 5).state.last_positions =
      initState.last_positions ∧
    (reset_position (fun _ => false) initState 1).state.last_positions 1 = some 0 :=
  ⟨(last_positions_update_asymmetry (fun _ => false) initState 1 5).2.1 rfl,
   (last_positions_update_asymmetry (fun _ => false) initState 1 5).2.2⟩

/-- Claim C10: among the motor operations only `set_target_position`
propagates the boolean send result to its caller; all the others return
`None` whatever the transport reports, so their callers cannot observe a
send failure through the return value. -/
theorem method_return_values (radiansOf : Int → Nat) (send : Frame → Bool) (s : MotorState)
    (motor_id bits sp tq : Nat) (degrees : Int) :
    (enable_motor send s motor_id).ret = none ∧
    (disable_motor send s motor_id).ret = none ∧
    (stop_motor send s motor_id).ret = none ∧
    (reset_position send s motor_id).ret = none ∧
    (set_position_control_mode send s motor_id).ret = none ∧
    (set_limit_speed send s motor_id bits).ret = none ∧
    (set_limit_torque send s motor_id bits).ret = none ∧
    (move_to_degrees radiansOf send s motor_id degrees sp tq).ret = none ∧
    (set_target_position send s motor_id bits).ret =
      some (send ⟨0x12, motor_id, [0x16, 0x70, 0x00, 0x00] ++ packF32LE bits⟩) :=
  ⟨rfl, rfl, rfl, rfl, rfl, rfl, rfl, rfl, rfl⟩

end CyberGear
